import Mathlib

/-
Verification of the armctl vendor-agnostic robot-arm control library.

Shallow embedding conventions:
- Python bytes are modelled as `List Nat` (each entry a byte value below 256).
- IEEE-754 doubles are modelled by their 64-bit big-endian bit patterns
  (a `Nat` below 2^64); the float value 0.0 corresponds to the bit pattern 0.
  The parser under verification never does arithmetic on the decoded doubles,
  it only unpacks them, so the bit-pattern view is faithful.
- Python floats appearing as configuration constants (joint ranges, velocity
  and acceleration limits) are modelled as rationals; `math.pi` is modelled by
  the exact rational value of the IEEE-754 double nearest pi, which is the
  value the Python runtime actually uses.
- Fallible operations return `Except`/`Option` or an explicit error component;
  network traffic is tracked as an explicit list of sent commands.
-/

namespace Armctl

/-- Exact rational value of the IEEE-754 double `math.pi`
(884279719003555 * 2^(-48)). -/
def piF : ℚ := 884279719003555 / 281474976710656

/-- Model of Python `math.radians`: degrees to radians using `piF`. -/
def radiansQ (x : ℚ) : ℚ := x * piF / 180

/-- Model of Python `math.degrees`: radians to degrees using `piF`. -/
def degreesQ (x : ℚ) : ℚ := x * 180 / piF

/-! ## RTDE binary telemetry parser
Embedding of `armctl/universal_robotics/protocols/rtde.py`. -/

namespace RTDE

/-- Big-endian interpretation of a byte list, as used by
`struct.unpack("!I", ...)` (4 bytes) and for 8-byte double bit patterns. -/
def bytesToNatBE (l : List Nat) : Nat := l.foldl (fun a b => a * 256 + b) 0

/-- Big-endian encoding of `n` into `w` bytes (the inverse of `bytesToNatBE`
for values below `256 ^ w`); used to build synthetic packets. -/
def encBE : Nat → Nat → List Nat
  | 0, _ => []
  | w + 1, n => encBE w (n / 256) ++ [n % 256]

/-- Model of `struct.unpack("!{count}d", buf)`: the `count` big-endian 64-bit
words of `buf`, each the bit pattern of one double. -/
def decodeWords (count : Nat) (buf : List Nat) : List Nat :=
  (List.range count).map (fun i => bytesToNatBE ((buf.drop (8 * i)).take 8))

/-- Default result of the parser: `count` copies of the bit pattern of 0.0,
modelling `tuple(0.0 for _ in range(count))`. -/
def zeros (count : Nat) : List Nat := List.replicate count 0

/-- The submessage scan loop of `RTDE._parse_message`.  `pl` is the declared
packet length, `offset` the current scan position.  Mirrors, in order: the
`while offset + MSG_HEADER_SIZE <= packet_length` guard, the
`offset + MSG_HEADER_SIZE > len(data)` break, the `msg_len`/`msg_type`
unpacking, the `msg_len < MSG_HEADER_SIZE or offset + msg_len > packet_length`
break, the target-type extraction (with its `data_end` bounds check and the
break on insufficient data), and the `offset += msg_len` advance.  Every
`break` path falls through to the zeros default, as in the source. -/
def parseLoop (data : List Nat) (pl target count offset : Nat) : List Nat :=
  if _h1 : offset + 5 ≤ pl then
    if offset + 5 > data.length then zeros count
    else
      let msg_len := bytesToNatBE ((data.drop offset).take 4)
      let msg_type := (data.drop (offset + 4)).headD 0
      if _h2 : msg_len < 5 ∨ offset + msg_len > pl then zeros count
      else if msg_type = target then
        if offset + 5 + count * 8 ≤ data.length ∧
            offset + 5 + count * 8 ≤ offset + msg_len then
          decodeWords count ((data.drop (offset + 5)).take (count * 8))
        else zeros count
      else parseLoop data pl target count (offset + msg_len)
  else zeros count
termination_by pl - offset
decreasing_by
  push_neg at _h2
  omega

/-- Embedding of `RTDE._parse_message`: header-size check, packet-length
unpack and consistency check, then the submessage scan from offset 4.
The Python `try/except` never fires on the paths modelled here, because
every slice is bounds-checked before `struct.unpack` is applied. -/
def parse_message (data : List Nat) (target count : Nat) : List Nat :=
  if data.length < 4 then zeros count
  else
    let pl := bytesToNatBE (data.take 4)
    if pl > data.length ∨ pl < 4 then zeros count
    else parseLoop data pl target count 4

/-- Embedding of `RTDE.joint_angles` (message type 1, six doubles). -/
def joint_angles (data : List Nat) : List Nat := parse_message data 1 6

/-- Embedding of `RTDE.tcp_pose` (message type 4, six doubles). -/
def tcp_pose (data : List Nat) : List Nat := parse_message data 4 6

/-! ### Synthetic packet construction, for stating well-formedness claims -/

/-- One framed submessage: 4-byte big-endian length (covering the 5-byte
header), 1-byte type tag, payload. -/
def buildSub (t : Nat) (p : List Nat) : List Nat :=
  encBE 4 (5 + p.length) ++ (t :: p)

/-- Concatenated body of a list of (type, payload) submessages. -/
def subsJoin (msgs : List (Nat × List Nat)) : List Nat :=
  (msgs.map (fun tp => buildSub tp.1 tp.2)).flatten

/-- A full packet: 4-byte big-endian total length header followed by the
submessage body. -/
def buildPacket (msgs : List (Nat × List Nat)) : List Nat :=
  encBE 4 (4 + (subsJoin msgs).length) ++ subsJoin msgs

/-- Well-formedness of a submessage list: byte-valued type tags and payloads,
and submessage lengths representable in the 32-bit length field. -/
def WfMsgs (msgs : List (Nat × List Nat)) : Prop :=
  (∀ tp ∈ msgs, tp.1 < 256 ∧ (∀ b ∈ tp.2, b < 256) ∧ 5 + tp.2.length < 2 ^ 32)
    ∧ 4 + (subsJoin msgs).length < 2 ^ 32

end RTDE

/-! ## SocketController transport
Embedding of `armctl/templates/socket_controller.py`. -/

namespace SC

/-- Connection state: the `send_socket` and `recv_socket` attributes of
`SocketController`.  Socket objects are identified by small numerals (0 the
send socket, 1 the separate receive socket); `none` is Python `None`. -/
structure SCState where
  send_socket : Option Nat
  recv_socket : Option Nat
deriving DecidableEq

/-- Environment for one `connect` call: whether each socket `connect` call
succeeds and whether the initial `recv` on the receive socket succeeds. -/
structure ConnectEnv where
  sendConnectOk : Bool
  recvConnectOk : Bool
  initialRecvOk : Bool
deriving DecidableEq

inductive ConnectOutcome
  | ok
  | connectionError
deriving DecidableEq

/-- Embedding of `SocketController.connect`.  `dualPort` is
`recv_port != send_port`.  Mirrors the source order: create and connect the
send socket; when the ports differ, create and connect the receive socket,
otherwise alias it to the send socket; then attempt the initial
`recv_socket.recv(4096)`.  Any failure is caught by the outer `try` and
re-raised as `ConnectionError`; the handler performs no cleanup, so the
already-assigned socket attributes keep their values. -/
def connect (dualPort : Bool) (env : ConnectEnv) (st : SCState) :
    SCState × ConnectOutcome :=
  let st1 : SCState := { st with send_socket := some 0 }
  if ¬ env.sendConnectOk then (st1, .connectionError)
  else if dualPort then
    let st2 : SCState := { st1 with recv_socket := some 1 }
    if ¬ env.recvConnectOk then (st2, .connectionError)
    else if ¬ env.initialRecvOk then (st2, .connectionError)
    else (st2, .ok)
  else
    let st2 : SCState := { st1 with recv_socket := some 0 }
    if ¬ env.initialRecvOk then (st2, .connectionError)
    else (st2, .ok)

/-- Embedding of `SocketController.disconnect`: close whichever sockets are
set (closing a TCP socket object does not fail), then clear both attributes.
The surrounding `try/except` logs instead of re-raising; the Bool result
records whether an exception escaped, which is always `false`. -/
def disconnect (_st : SCState) : SCState × Bool :=
  (⟨none, none⟩, false)

/-- The not-connected test of `send_command`
(`not self.send_socket or not self.recv_socket`, negated). -/
def connectedB (st : SCState) : Bool :=
  st.send_socket.isSome && st.recv_socket.isSome

/-- Continuation byte test (0x80 to 0xBF). -/
def isCont (b : Nat) : Bool := decide (128 ≤ b ∧ b ≤ 191)

/-- Range test for the second byte of a multi-byte sequence. -/
def inRange (lo hi c : Nat) : Bool := decide (lo ≤ c ∧ c ≤ hi)

/-- Strict UTF-8 decoding of a byte list into code points, `none` on invalid
input; mirrors Python `bytes.decode("utf-8")` (rejects overlong forms,
surrogates and values above U+10FFFF). -/
def utf8Decode : List Nat → Option (List Nat)
  | [] => some []
  | b :: rest =>
    if b ≤ 127 then (utf8Decode rest).map (fun s => b :: s)
    else if 194 ≤ b ∧ b ≤ 223 then
      match rest with
      | c1 :: rest2 =>
        if isCont c1 then
          (utf8Decode rest2).map (fun s => ((b - 192) * 64 + (c1 - 128)) :: s)
        else none
      | [] => none
    else if 224 ≤ b ∧ b ≤ 239 then
      match rest with
      | c1 :: c2 :: rest2 =>
        if (if b = 224 then inRange 160 191 c1
            else if b = 237 then inRange 128 159 c1
            else isCont c1) && isCont c2 then
          (utf8Decode rest2).map
            (fun s => ((b - 224) * 4096 + (c1 - 128) * 64 + (c2 - 128)) :: s)
        else none
      | _ => none
    else if 240 ≤ b ∧ b ≤ 244 then
      match rest with
      | c1 :: c2 :: c3 :: rest2 =>
        if (if b = 240 then inRange 144 191 c1
            else if b = 244 then inRange 128 143 c1
            else isCont c1) && isCont c2 && isCont c3 then
          (utf8Decode rest2).map
            (fun s => ((b - 240) * 262144 + (c1 - 128) * 4096
              + (c2 - 128) * 64 + (c3 - 128)) :: s)
        else none
      | _ => none
    else none
termination_by l => l.length
decreasing_by all_goals (simp <;> omega)

/-- Python `bytes.decode("latin1")`: maps byte k to code point k and never
fails, so the fallback attempt always succeeds. -/
def latin1Decode (b : List Nat) : Option (List Nat) := some b

/-- Python `bytes.decode("utf-8", errors="replace")`: total decoding that
substitutes U+FFFD for invalid sequences.  This leg of the fallback chain is
unreachable (latin-1 decoding never fails), so the replacement granularity is
abstracted: ASCII bytes decode to themselves and any other byte contributes
one U+FFFD. -/
def utf8Replace : List Nat → List Nat
  | [] => []
  | b :: rest => (if b ≤ 127 then b else 65533) :: utf8Replace rest

/-- The decoding fallback chain of `send_command`: the
`for encoding in ("utf-8", "latin1")` loop with its `else` clause decoding
UTF-8 with replacement characters. -/
def decodeFallback (b : List Nat) : List Nat :=
  match utf8Decode b with
  | some s => s
  | none =>
    match latin1Decode b with
    | some s => s
    | none => utf8Replace b

/-- Result of the single `recv` in `send_command`, as chosen by the
environment: response bytes, a socket timeout, or another socket error. -/
inductive RecvOutcome
  | bytes (b : List Nat)
  | timeout
  | failed
deriving DecidableEq

structure CmdEnv where
  sendOk : Bool
  recv : RecvOutcome
deriving DecidableEq

inductive CmdError
  | connectionError
  | timeoutError
deriving DecidableEq

inductive CmdResult
  | raw (b : List Nat)
  | text (s : List Nat)
deriving DecidableEq

/-- Embedding of `SocketController.send_command`: not-connected check, the
`sendall`/`recv` pair with its exception translation (socket timeout to
`TimeoutError`, anything else to `ConnectionError`), the `raw_response`
shortcut, and the decoding fallback chain. -/
def send_command (st : SCState) (env : CmdEnv) (raw_response : Bool) :
    Except CmdError CmdResult :=
  if ¬ connectedB st then .error .connectionError
  else if ¬ env.sendOk then .error .connectionError
  else
    match env.recv with
    | .timeout => .error .timeoutError
    | .failed => .error .connectionError
    | .bytes b =>
      if raw_response then .ok (.raw b)
      else .ok (.text (decodeFallback b))

end SC

/-! ## Vendor adapters -/

/-- First joint index whose commanded position falls outside its configured
range, scanning ranges and positions in parallel in index order, exactly as
the per-vendor `for` loops do on equal-length lists. -/
def firstViolationAux : List (ℚ × ℚ) → List ℚ → Nat → Option Nat
  | _, [], _ => none
  | [], _ :: _, _ => none
  | (lo, hi) :: rs, x :: xs, i =>
    if lo ≤ x ∧ x ≤ hi then firstViolationAux rs xs (i + 1) else some i

def firstViolation (ranges : List (ℚ × ℚ)) (pos : List ℚ) : Option Nat :=
  firstViolationAux ranges pos 0

namespace UR

/-- Joint ranges of `UniversalRobotics.__init__`: six axes of (-pi, pi). -/
def JOINT_RANGES : List (ℚ × ℚ) :=
  [(-piF, piF), (-piF, piF), (-piF, piF), (-piF, piF), (-piF, piF), (-piF, piF)]

def DOF : Nat := JOINT_RANGES.length

def MAX_JOINT_VELOCITY : ℚ := 2

def MAX_ACCELERATION : ℚ := 10

/-- Failures of `UniversalRobotics.move_joints`: the validation raises
(Python `ValueError` and `AssertionError`; the spec's `ValidationError`
taxonomy), plus the `TypeError` raised while the movej string is built: the
range loop rebinds the name `pos`, so the join over `map(str, pos)` is
applied to the last joint value, a float, and raises before any send. -/
inductive MoveErr
  | badLength
  | badSpeed
  | badAccel
  | badRange (idx : Nat)
  | typeErrorJoinOnFloat
deriving DecidableEq

/-- Commands `move_joints` could send; the movej line is unreachable (see
`MoveErr.typeErrorJoinOnFloat`), so a call never emits traffic. -/
inductive Cmd
  | movej (pos : List ℚ) (a v t r : ℚ)
deriving DecidableEq

/-- Embedding of `UniversalRobotics.move_joints`: length check
(`ValueError`), strict speed assert, inclusive acceleration assert, per-axis
range check in index order, then the command construction (which raises
`TypeError`).  The second component is the traffic sent during the call. -/
def move_joints (pos : List ℚ) (speed accel _t _radius : ℚ) :
    Option MoveErr × List Cmd :=
  if pos.length ≠ DOF then (some .badLength, [])
  else if ¬ speed < MAX_JOINT_VELOCITY then (some .badSpeed, [])
  else if ¬ accel ≤ MAX_ACCELERATION then (some .badAccel, [])
  else
    match firstViolation JOINT_RANGES pos with
    | some i => (some (.badRange i), [])
    | none => (some .typeErrorJoinOnFloat, [])

end UR

namespace Elephant

/-- Joint ranges of `ElephantRobotics.__init__`, in degrees. -/
def JOINT_RANGES : List (ℚ × ℚ) :=
  [(-180, 180), (-270, 90), (-150, 150), (-260, 80), (-168, 168), (-174, 174)]

def DOF : Nat := JOINT_RANGES.length

inductive MoveErr
  | badLength
  | badRange (idx : Nat)
  | badSpeed
  | badResponse (resp : String)
deriving DecidableEq

inductive Cmd
  | setAngles (pos : List ℚ) (speed : ℚ)
  | getAngles
deriving DecidableEq

/-- Environment for one `move_joints` call: the reply to `set_angles` and
the successive joint positions reported by `get_joint_positions` during the
completion poll. -/
structure Env where
  setAnglesResp : String
  jointsAt : Nat → List ℚ

/-- The completion test of the poll loop:
`any(abs(a - b) > 3 for a, b in zip(current, target))`. -/
def anyFar (cur target : List ℚ) : Bool :=
  (cur.zip target).any (fun ab => decide (3 < |ab.1 - ab.2|))

/-- The `while any(...): time.sleep(1)` poll of `move_joints`, with explicit
fuel: `some k` when the loop exits after `k` position queries, `none` when
it is still running after `fuel` polls. -/
def movePoll (env : Env) (target : List ℚ) : Nat → Nat → Option Nat
  | 0, _ => none
  | fuel + 1, n =>
    if anyFar (env.jointsAt n) target then movePoll env target fuel (n + 1)
    else some (n + 1)

inductive Outcome
  | err (e : MoveErr)
  | ok
  | stillPolling
deriving DecidableEq

/-- Embedding of `ElephantRobotics.move_joints`: length check, per-axis
range check, speed bound 0..2000 (both ends inclusive), then the
`set_angles` send, the `assert response == "set_angles:[ok]"`, and the
completion poll (each poll sends one `get_angles` query).  The second
component is the traffic sent during the call. -/
def move_joints (env : Env) (fuel : Nat) (pos : List ℚ) (speed : ℚ) :
    Outcome × List Cmd :=
  if pos.length ≠ DOF then (.err .badLength, [])
  else
    match firstViolation JOINT_RANGES pos with
    | some i => (.err (.badRange i), [])
    | none =>
      if ¬ (0 ≤ speed ∧ speed ≤ 2000) then (.err .badSpeed, [])
      else if env.setAnglesResp ≠ "set_angles:[ok]" then
        (.err (.badResponse env.setAnglesResp), [Cmd.setAngles pos speed])
      else
        match movePoll env pos fuel 0 with
        | none =>
          (.stillPolling, Cmd.setAngles pos speed :: List.replicate fuel Cmd.getAngles)
        | some k =>
          (.ok, Cmd.setAngles pos speed :: List.replicate k Cmd.getAngles)

end Elephant

namespace Jaka

/-- Joint ranges of `Jaka.__init__`, in radians. -/
def JOINT_RANGES : List (ℚ × ℚ) :=
  [(-piF, piF), (radiansQ (-85), radiansQ 265), (radiansQ (-175), radiansQ 175),
    (radiansQ (-85), radiansQ 265), (radiansQ (-300), radiansQ 300), (-piF, piF)]

def DOF : Nat := JOINT_RANGES.length

def MAX_JOINT_VELOCITY : ℚ := radiansQ 180

def MAX_JOINT_ACCELERATION : ℚ := radiansQ 720

/-- A decoded JSON-style reply dictionary, with the fields consulted by
`_send_and_check` and `move_joints`.  Wire strings are `List Char`. -/
structure Resp where
  errorCode : List Char
  cmdName : List Char
  errorMsg : Option (List Char)
deriving DecidableEq

/-- Rendering of the reply dict interpolated into failure messages (the
`{resp}` part of the f-string); the exact dict repr is abstracted. -/
def renderResp (r : Resp) : List Char :=
  "errorCode=".toList ++ r.errorCode ++ ", cmdName=".toList ++ r.cmdName

/-- Python renders a missing `errorMsg` as `None`. -/
def renderMsg (m : Option (List Char)) : List Char :=
  match m with
  | some s => s
  | none => "None".toList

/-- Failure message of `Jaka._send_and_check`: Failed to execute {cmd}:
{resp}. {errorMsg}. -/
def failMsg (cmd : List Char) (r : Resp) : List Char :=
  "Failed to execute ".toList ++ cmd ++ ": ".toList ++ renderResp r
    ++ ". ".toList ++ renderMsg r.errorMsg

/-- Embedding of `Jaka._send_and_check`: a dict reply passes only when its
`errorCode` is the string 0 and its `cmdName` echoes the command; otherwise
`RuntimeError` (the spec's `DeviceError`) carrying `failMsg`. -/
def send_and_check (cmd : List Char) (r : Resp) : Except (List Char) Resp :=
  if r.errorCode = "0".toList ∧ r.cmdName = cmd then .ok r
  else .error (failMsg cmd r)

inductive MoveErr
  | badLength
  | badSpeed
  | badAccel
  | badRange (idx : Nat)
  | moveFailed (msg : List Char)
deriving DecidableEq

inductive Cmd
  | jointMove (posDeg : List ℚ) (speedDeg accelDeg : ℚ)
deriving DecidableEq

/-- Failure message of the inline reply check in `Jaka.move_joints`: Failed
to move joints: {resp}. {errorMsg}. -/
def moveFailMsg (r : Resp) : List Char :=
  "Failed to move joints: ".toList ++ renderResp r ++ ". ".toList
    ++ renderMsg r.errorMsg

/-- Embedding of `Jaka.move_joints`: length check, strict speed assert,
strict acceleration assert (`<`, unlike Universal Robotics), per-axis range
check in index order, then the `joint_move` JSON command (converted to
degrees) and the inline reply check.  The second component is the traffic
sent during the call. -/
def move_joints (pos : List ℚ) (speed accel : ℚ) (reply : Resp) :
    Option MoveErr × List Cmd :=
  if pos.length ≠ DOF then (some .badLength, [])
  else if ¬ speed < MAX_JOINT_VELOCITY then (some .badSpeed, [])
  else if ¬ accel < MAX_JOINT_ACCELERATION then (some .badAccel, [])
  else
    match firstViolation JOINT_RANGES pos with
    | some i => (some (.badRange i), [])
    | none =>
      let cmd := Cmd.jointMove (pos.map degreesQ) (degreesQ speed) (degreesQ accel)
      if reply.errorCode = "0".toList ∧ reply.cmdName = "joint_move".toList then
        (none, [cmd])
      else (some (.moveFailed (moveFailMsg reply)), [cmd])

end Jaka

/-! ## Motion-completion polling loops -/

/-- Boolean prefix test on character lists. -/
def listIsPrefixB : List Char → List Char → Bool
  | [], _ => true
  | _ :: _, [] => false
  | x :: xs, y :: ys => if x = y then listIsPrefixB xs ys else false

/-- Boolean infix test on character lists (Python `needle in hay`). -/
def listIsInfixB (needle : List Char) : List Char → Bool
  | [] => needle.isEmpty
  | c :: t => listIsPrefixB needle (c :: t) || listIsInfixB needle t

namespace Vention

/-- Default poll interval of `Vention._wait_for_finish`, seconds. -/
def delay : ℚ := 1

/-- Default overall timeout of `Vention._wait_for_finish`, seconds. -/
def timeoutBudget : ℚ := 120

/-- Embedding of the `Vention._wait_for_finish` loop over a stream of
replies to `isMotionCompleted;`.  Iteration `n` sees `replies n`; the
elapsed time at iteration `n` is modelled as `n * delay` (`n` sleeps have
occurred; command round-trips are idealised as instantaneous, which can only
postpone the timeout check relative to the real clock).  Returns `some true`
on completion, `some false` for the `TimeoutError` raise, and `none` when
`fuel` iterations did not decide. -/
def waitForFinish (replies : Nat → String) : Nat → Nat → Option Bool
  | 0, _ => none
  | fuel + 1, n =>
    if listIsInfixB "true".toList (replies n).toList then some true
    else if timeoutBudget < (n : ℚ) * delay then some false
    else waitForFinish replies fuel (n + 1)

end Vention

namespace Elephant

/-- Embedding of `ElephantRobotics._waitforfinish`: an unconditional
`while True` that breaks only when the reply equals `wait_command_done:0`,
sleeping 0.25 s between polls, over a stream of replies; `some n` when
iteration `n` sees the done reply, `none` when `fuel` iterations pass
without it.  The loop has no overall timeout. -/
def waitForFinish (replies : Nat → String) : Nat → Nat → Option Nat
  | 0, _ => none
  | fuel + 1, n =>
    if replies n = "wait_command_done:0" then some n
    else waitForFinish replies fuel (n + 1)

end Elephant

/-! ## Theorems -/

namespace RTDE

theorem encBE_length (w n : Nat) : (encBE w n).length = w := by
  induction w generalizing n with
  | zero => rfl
  | succ w ih => simp [encBE, ih]

theorem bytesToNatBE_encBE (w n : Nat) :
    bytesToNatBE (encBE w n) = n % 256 ^ w := by
  induction w generalizing n with
  | zero => simp [encBE, bytesToNatBE, Nat.mod_one]
  | succ w ih =>
    unfold encBE
    unfold bytesToNatBE at ih ⊢
    rw [List.foldl_append, ih]
    simp only [List.foldl]
    rw [pow_succ, mul_comm (256 ^ w) 256, Nat.mod_mul]
    omega

theorem take_append_len {l1 l2 : List Nat} {n : Nat} (h : l1.length = n) :
    (l1 ++ l2).take n = l1 := by
  subst h
  exact List.take_left l1 l2

theorem drop_of_drop_append {data pre rest : List Nat} {offset n : Nat}
    (h : data.drop offset = pre ++ rest) (hn : pre.length = n) :
    data.drop (offset + n) = rest := by
  subst hn
  rw [← List.drop_drop, h, List.drop_left]

theorem length_buildSub (t : Nat) (p : List Nat) :
    (buildSub t p).length = 5 + p.length := by
  simp [buildSub, encBE_length]
  omega

/-- Scanning past a submessage whose type does not match: the loop advances
by the declared submessage length. -/
theorem parseLoop_skip {data : List Nat} {pl target count offset : Nat}
    {t : Nat} {p rest : List Nat}
    (hdrop : data.drop offset = buildSub t p ++ rest)
    (hsz : 5 + p.length < 2 ^ 32)
    (ht : t ≠ target)
    (hpl : pl = data.length) :
    parseLoop data pl target count offset
      = parseLoop data pl target count (offset + (5 + p.length)) := by
  subst hpl
  have hlen : data.length - offset = (5 + p.length) + rest.length := by
    have h := congrArg List.length hdrop
    simp only [List.length_drop, List.length_append, length_buildSub] at h
    omega
  have htake : (data.drop offset).take 4 = encBE 4 (5 + p.length) := by
    rw [hdrop, buildSub, List.append_assoc]
    exact take_append_len (encBE_length 4 _)
  have hmsglen : bytesToNatBE ((data.drop offset).take 4) = 5 + p.length := by
    rw [htake, bytesToNatBE_encBE]
    have h2 : (256 : ℕ) ^ 4 = 2 ^ 32 := by norm_num
    rw [h2]
    exact Nat.mod_eq_of_lt hsz
  have hsplit2 : data.drop offset
      = encBE 4 (5 + p.length) ++ (t :: (p ++ rest)) := by
    simpa [buildSub] using hdrop
  have htype : (data.drop (offset + 4)).headD 0 = t := by
    rw [drop_of_drop_append hsplit2 (encBE_length 4 _)]
    rfl
  rw [parseLoop.eq_def]
  rw [dif_pos (by omega : offset + 5 ≤ data.length)]
  rw [if_neg (by omega : ¬ offset + 5 > data.length)]
  simp only [hmsglen, htype]
  rw [dif_neg (by omega : ¬ (5 + p.length < 5 ∨ offset + (5 + p.length) > data.length))]
  rw [if_neg ht]

/-- Extraction at a matching submessage with a large enough payload: the first
`count * 8` payload bytes are unpacked. -/
theorem parseLoop_hit {data : List Nat} {pl target count offset : Nat}
    {p rest : List Nat}
    (hdrop : data.drop offset = buildSub target p ++ rest)
    (hsz : 5 + p.length < 2 ^ 32)
    (hpl : pl = data.length)
    (hfit : count * 8 ≤ p.length) :
    parseLoop data pl target count offset
      = decodeWords count (p.take (count * 8)) := by
  subst hpl
  have hlen : data.length - offset = (5 + p.length) + rest.length := by
    have h := congrArg List.length hdrop
    simp only [List.length_drop, List.length_append, length_buildSub] at h
    omega
  have htake : (data.drop offset).take 4 = encBE 4 (5 + p.length) := by
    rw [hdrop, buildSub, List.append_assoc]
    exact take_append_len (encBE_length 4 _)
  have hmsglen : bytesToNatBE ((data.drop offset).take 4) = 5 + p.length := by
    rw [htake, bytesToNatBE_encBE]
    have h2 : (256 : ℕ) ^ 4 = 2 ^ 32 := by norm_num
    rw [h2]
    exact Nat.mod_eq_of_lt hsz
  have hsplit2 : data.drop offset
      = encBE 4 (5 + p.length) ++ (target :: (p ++ rest)) := by
    simpa [buildSub] using hdrop
  have htype : (data.drop (offset + 4)).headD 0 = target := by
    rw [drop_of_drop_append hsplit2 (encBE_length 4 _)]
    rfl
  have hsplit5 : data.drop offset
      = (encBE 4 (5 + p.length) ++ [target]) ++ (p ++ rest) := by
    simpa [buildSub] using hdrop
  have hdrop5 : data.drop (offset + 5) = p ++ rest :=
    drop_of_drop_append hsplit5 (by simp [encBE_length])
  rw [parseLoop.eq_def]
  rw [dif_pos (by omega : offset + 5 ≤ data.length)]
  rw [if_neg (by omega : ¬ offset + 5 > data.length)]
  simp only [hmsglen, htype]
  rw [dif_neg (by omega : ¬ (5 + p.length < 5 ∨ offset + (5 + p.length) > data.length))]
  simp only [if_true]
  rw [if_pos (⟨by omega, by omega⟩ :
    offset + 5 + count * 8 ≤ data.length ∧
      offset + 5 + count * 8 ≤ offset + (5 + p.length))]
  rw [hdrop5, List.take_append_of_le_length hfit]

/-- Extraction at a matching submessage whose payload is too short: the scan
aborts and the zeros default is returned, regardless of what follows. -/
theorem parseLoop_hit_short {data : List Nat} {pl target count offset : Nat}
    {p rest : List Nat}
    (hdrop : data.drop offset = buildSub target p ++ rest)
    (hsz : 5 + p.length < 2 ^ 32)
    (hpl : pl = data.length)
    (hshort : p.length < count * 8) :
    parseLoop data pl target count offset = zeros count := by
  subst hpl
  have hlen : data.length - offset = (5 + p.length) + rest.length := by
    have h := congrArg List.length hdrop
    simp only [List.length_drop, List.length_append, length_buildSub] at h
    omega
  have htake : (data.drop offset).take 4 = encBE 4 (5 + p.length) := by
    rw [hdrop, buildSub, List.append_assoc]
    exact take_append_len (encBE_length 4 _)
  have hmsglen : bytesToNatBE ((data.drop offset).take 4) = 5 + p.length := by
    rw [htake, bytesToNatBE_encBE]
    have h2 : (256 : ℕ) ^ 4 = 2 ^ 32 := by norm_num
    rw [h2]
    exact Nat.mod_eq_of_lt hsz
  have hsplit2 : data.drop offset
      = encBE 4 (5 + p.length) ++ (target :: (p ++ rest)) := by
    simpa [buildSub] using hdrop
  have htype : (data.drop (offset + 4)).headD 0 = target := by
    rw [drop_of_drop_append hsplit2 (encBE_length 4 _)]
    rfl
  rw [parseLoop.eq_def]
  rw [dif_pos (by omega : offset + 5 ≤ data.length)]
  rw [if_neg (by omega : ¬ offset + 5 > data.length)]
  simp only [hmsglen, htype]
  rw [dif_neg (by omega : ¬ (5 + p.length < 5 ∨ offset + (5 + p.length) > data.length))]
  simp only [if_true]
  rw [if_neg (by omega :
    ¬ (offset + 5 + count * 8 ≤ data.length ∧
      offset + 5 + count * 8 ≤ offset + (5 + p.length)))]

theorem subsJoin_append (a b : List (Nat × List Nat)) :
    subsJoin (a ++ b) = subsJoin a ++ subsJoin b := by
  simp [subsJoin]

theorem subsJoin_cons (tp : Nat × List Nat) (msgs : List (Nat × List Nat)) :
    subsJoin (tp :: msgs) = buildSub tp.1 tp.2 ++ subsJoin msgs := by
  simp [subsJoin]

/-- Scanning past a whole block of non-matching submessages. -/
theorem parseLoop_skipAll {data : List Nat} {target count : Nat} (tail : List Nat) :
    ∀ (pre : List (Nat × List Nat)) (offset : Nat),
      (∀ tp ∈ pre, 5 + tp.2.length < 2 ^ 32 ∧ tp.1 ≠ target) →
      data.drop offset = subsJoin pre ++ tail →
      parseLoop data data.length target count offset
        = parseLoop data data.length target count (offset + (subsJoin pre).length) := by
  intro pre
  induction pre with
  | nil =>
    intro offset _ _
    simp [subsJoin]
  | cons tp pre ih =>
    intro offset hwf hdrop
    obtain ⟨t0, p0⟩ := tp
    rw [subsJoin_cons, List.append_assoc] at hdrop
    have hw0 := hwf (t0, p0) (by simp)
    rw [parseLoop_skip hdrop hw0.1 hw0.2 rfl]
    have hdrop2 : data.drop (offset + (5 + p0.length)) = subsJoin pre ++ tail :=
      drop_of_drop_append hdrop (length_buildSub t0 p0)
    rw [ih (offset + (5 + p0.length)) (fun tp h => hwf tp (by simp [h])) hdrop2]
    congr 1
    rw [subsJoin_cons]
    simp only [List.length_append, length_buildSub]
    omega

/-- Header facts about `buildPacket`. -/
theorem buildPacket_length (msgs : List (Nat × List Nat)) :
    (buildPacket msgs).length = 4 + (subsJoin msgs).length := by
  simp [buildPacket, encBE_length]

theorem buildPacket_drop4 (msgs : List (Nat × List Nat)) :
    (buildPacket msgs).drop 4 = subsJoin msgs := by
  have h : (buildPacket msgs).drop 0 = encBE 4 (4 + (subsJoin msgs).length) ++ subsJoin msgs := by
    simp [buildPacket]
  have h2 := drop_of_drop_append h (encBE_length 4 _)
  simpa using h2

/-- On a well-formed packet, `parse_message` extracts the first `count * 8`
payload bytes of the first submessage whose type matches, provided that
payload is large enough. -/
theorem parse_message_first {msgs pre rest : List (Nat × List Nat)}
    {t : Nat} {p : List Nat} {count : Nat}
    (hwf : WfMsgs msgs) (hsplit : msgs = pre ++ (t, p) :: rest)
    (hpre : ∀ tp ∈ pre, tp.1 ≠ t)
    (hfit : count * 8 ≤ p.length) :
    parse_message (buildPacket msgs) t count
      = decodeWords count (p.take (count * 8)) := by
  have hlen := buildPacket_length msgs
  have htake4 : (buildPacket msgs).take 4 = encBE 4 (4 + (subsJoin msgs).length) :=
    take_append_len (encBE_length 4 _)
  have hplv : bytesToNatBE ((buildPacket msgs).take 4)
      = 4 + (subsJoin msgs).length := by
    rw [htake4, bytesToNatBE_encBE]
    have h2 : (256 : ℕ) ^ 4 = 2 ^ 32 := by norm_num
    rw [h2]
    exact Nat.mod_eq_of_lt hwf.2
  have hsubs : subsJoin msgs
      = subsJoin pre ++ (buildSub t p ++ subsJoin rest) := by
    rw [hsplit, subsJoin_append, subsJoin_cons]
  have hdrop4 : (buildPacket msgs).drop 4
      = subsJoin pre ++ (buildSub t p ++ subsJoin rest) := by
    rw [buildPacket_drop4, hsubs]
  have hmem : (t, p) ∈ msgs := by
    rw [hsplit]
    exact List.mem_append_right _ (List.mem_cons_self _ _)
  have hsz : 5 + p.length < 2 ^ 32 := (hwf.1 (t, p) hmem).2.2
  simp only [parse_message]
  rw [if_neg (by omega : ¬ (buildPacket msgs).length < 4)]
  simp only [hplv]
  rw [if_neg (by omega :
    ¬ (4 + (subsJoin msgs).length > (buildPacket msgs).length
      ∨ 4 + (subsJoin msgs).length < 4))]
  rw [show 4 + (subsJoin msgs).length = (buildPacket msgs).length from hlen.symm]
  rw [parseLoop_skipAll (buildSub t p ++ subsJoin rest) pre 4
    (fun tp h => ⟨(hwf.1 tp (by rw [hsplit]; exact List.mem_append_left _ h)).2.2,
      hpre tp h⟩) hdrop4]
  have hdropAt : (buildPacket msgs).drop (4 + (subsJoin pre).length)
      = buildSub t p ++ subsJoin rest :=
    drop_of_drop_append hdrop4 rfl
  exact parseLoop_hit hdropAt hsz rfl hfit

/-- On a well-formed packet, if the first submessage of the requested type has
a payload shorter than `count * 8` bytes, the scan aborts with the zeros
default, whatever submessages follow. -/
theorem parse_message_first_short {msgs pre rest : List (Nat × List Nat)}
    {t : Nat} {p : List Nat} {count : Nat}
    (hwf : WfMsgs msgs) (hsplit : msgs = pre ++ (t, p) :: rest)
    (hpre : ∀ tp ∈ pre, tp.1 ≠ t)
    (hshort : p.length < count * 8) :
    parse_message (buildPacket msgs) t count = zeros count := by
  have hlen := buildPacket_length msgs
  have htake4 : (buildPacket msgs).take 4 = encBE 4 (4 + (subsJoin msgs).length) :=
    take_append_len (encBE_length 4 _)
  have hplv : bytesToNatBE ((buildPacket msgs).take 4)
      = 4 + (subsJoin msgs).length := by
    rw [htake4, bytesToNatBE_encBE]
    have h2 : (256 : ℕ) ^ 4 = 2 ^ 32 := by norm_num
    rw [h2]
    exact Nat.mod_eq_of_lt hwf.2
  have hsubs : subsJoin msgs
      = subsJoin pre ++ (buildSub t p ++ subsJoin rest) := by
    rw [hsplit, subsJoin_append, subsJoin_cons]
  have hdrop4 : (buildPacket msgs).drop 4
      = subsJoin pre ++ (buildSub t p ++ subsJoin rest) := by
    rw [buildPacket_drop4, hsubs]
  have hmem : (t, p) ∈ msgs := by
    rw [hsplit]
    exact List.mem_append_right _ (List.mem_cons_self _ _)
  have hsz : 5 + p.length < 2 ^ 32 := (hwf.1 (t, p) hmem).2.2
  simp only [parse_message]
  rw [if_neg (by omega : ¬ (buildPacket msgs).length < 4)]
  simp only [hplv]
  rw [if_neg (by omega :
    ¬ (4 + (subsJoin msgs).length > (buildPacket msgs).length
      ∨ 4 + (subsJoin msgs).length < 4))]
  rw [show 4 + (subsJoin msgs).length = (buildPacket msgs).length from hlen.symm]
  rw [parseLoop_skipAll (buildSub t p ++ subsJoin rest) pre 4
    (fun tp h => ⟨(hwf.1 tp (by rw [hsplit]; exact List.mem_append_left _ h)).2.2,
      hpre tp h⟩) hdrop4]
  have hdropAt : (buildPacket msgs).drop (4 + (subsJoin pre).length)
      = buildSub t p ++ subsJoin rest :=
    drop_of_drop_append hdrop4 rfl
  exact parseLoop_hit_short hdropAt hsz rfl hshort

/-- Malformed-header behaviour of `parse_message`: missing or truncated header,
or a declared length inconsistent with the buffer, yields the zeros default. -/
theorem parse_message_badHeader {data : List Nat} {target count : Nat}
    (h : data.length < 4
      ∨ bytesToNatBE (data.take 4) > data.length
      ∨ bytesToNatBE (data.take 4) < 4) :
    parse_message data target count = zeros count := by
  simp only [parse_message]
  by_cases h4 : data.length < 4
  · rw [if_pos h4]
  · rw [if_neg h4]
    rcases h with h | h
    · omega
    · rw [if_pos h]

end RTDE

/-! ### Vendor adapter characterizations (shared helpers) -/

theorem ur_traffic_empty (pos : List ℚ) (speed accel t radius : ℚ) :
    (UR.move_joints pos speed accel t radius).2 = [] := by
  unfold UR.move_joints
  split
  · rfl
  · split
    · rfl
    · split
      · rfl
      · split <;> rfl

theorem ur_badLength {pos : List ℚ} (speed accel t radius : ℚ)
    (h : pos.length ≠ UR.DOF) :
    UR.move_joints pos speed accel t radius = (some UR.MoveErr.badLength, []) := by
  unfold UR.move_joints
  rw [if_pos h]

theorem ur_badSpeed {pos : List ℚ} {speed : ℚ} (accel t radius : ℚ)
    (hl : pos.length = UR.DOF) (hs : UR.MAX_JOINT_VELOCITY ≤ speed) :
    UR.move_joints pos speed accel t radius = (some UR.MoveErr.badSpeed, []) := by
  unfold UR.move_joints
  rw [if_neg (by omega : ¬ pos.length ≠ UR.DOF)]
  rw [if_pos (not_lt.mpr hs)]

theorem ur_badAccel {pos : List ℚ} {speed accel : ℚ} (t radius : ℚ)
    (hl : pos.length = UR.DOF) (hs : speed < UR.MAX_JOINT_VELOCITY)
    (ha : UR.MAX_ACCELERATION < accel) :
    UR.move_joints pos speed accel t radius = (some UR.MoveErr.badAccel, []) := by
  unfold UR.move_joints
  rw [if_neg (by omega : ¬ pos.length ≠ UR.DOF)]
  rw [if_neg (not_not_intro hs)]
  rw [if_pos (not_le.mpr ha)]

theorem ur_badRange {pos : List ℚ} {speed accel : ℚ} {i : Nat} (t radius : ℚ)
    (hl : pos.length = UR.DOF) (hs : speed < UR.MAX_JOINT_VELOCITY)
    (ha : accel ≤ UR.MAX_ACCELERATION)
    (hfv : firstViolation UR.JOINT_RANGES pos = some i) :
    UR.move_joints pos speed accel t radius = (some (UR.MoveErr.badRange i), []) := by
  unfold UR.move_joints
  rw [if_neg (by omega : ¬ pos.length ≠ UR.DOF)]
  rw [if_neg (not_not_intro hs)]
  rw [if_neg (not_not_intro ha)]
  rw [hfv]

theorem ur_validated {pos : List ℚ} {speed accel : ℚ} (t radius : ℚ)
    (hl : pos.length = UR.DOF) (hs : speed < UR.MAX_JOINT_VELOCITY)
    (ha : accel ≤ UR.MAX_ACCELERATION)
    (hfv : firstViolation UR.JOINT_RANGES pos = none) :
    UR.move_joints pos speed accel t radius
      = (some UR.MoveErr.typeErrorJoinOnFloat, []) := by
  unfold UR.move_joints
  rw [if_neg (by omega : ¬ pos.length ≠ UR.DOF)]
  rw [if_neg (not_not_intro hs)]
  rw [if_neg (not_not_intro ha)]
  rw [hfv]

theorem elephant_badLength (env : Elephant.Env) (fuel : Nat) {pos : List ℚ}
    (speed : ℚ) (h : pos.length ≠ Elephant.DOF) :
    Elephant.move_joints env fuel pos speed
      = (.err Elephant.MoveErr.badLength, []) := by
  unfold Elephant.move_joints
  rw [if_pos h]

theorem elephant_badRange (env : Elephant.Env) (fuel : Nat) {pos : List ℚ}
    (speed : ℚ) {i : Nat} (hl : pos.length = Elephant.DOF)
    (hfv : firstViolation Elephant.JOINT_RANGES pos = some i) :
    Elephant.move_joints env fuel pos speed
      = (.err (Elephant.MoveErr.badRange i), []) := by
  unfold Elephant.move_joints
  rw [if_neg (by omega : ¬ pos.length ≠ Elephant.DOF)]
  rw [hfv]

theorem elephant_badSpeed (env : Elephant.Env) (fuel : Nat) {pos : List ℚ}
    {speed : ℚ} (hl : pos.length = Elephant.DOF)
    (hfv : firstViolation Elephant.JOINT_RANGES pos = none)
    (hs : ¬ (0 ≤ speed ∧ speed ≤ 2000)) :
    Elephant.move_joints env fuel pos speed
      = (.err Elephant.MoveErr.badSpeed, []) := by
  unfold Elephant.move_joints
  rw [if_neg (by omega : ¬ pos.length ≠ Elephant.DOF)]
  rw [hfv]
  rw [if_pos hs]

theorem elephant_validation_no_traffic (env : Elephant.Env) (fuel : Nat)
    (pos : List ℚ) (speed : ℚ) (e : Elephant.MoveErr)
    (hne : e ≠ Elephant.MoveErr.badResponse env.setAnglesResp)
    (h : (Elephant.move_joints env fuel pos speed).1 = .err e) :
    (Elephant.move_joints env fuel pos speed).2 = [] := by
  rcases hE : Elephant.move_joints env fuel pos speed with ⟨o, tr⟩
  rw [hE] at h
  simp only at h ⊢
  unfold Elephant.move_joints at hE
  split at hE
  · injection hE with h1 h2
    exact h2.symm
  · split at hE
    · injection hE with h1 h2
      exact h2.symm
    · split at hE
      · injection hE with h1 h2
        exact h2.symm
      · split at hE
        · injection hE with h1 h2
          rw [← h1] at h
          exact absurd (Elephant.Outcome.err.inj h).symm hne
        · split at hE
          · injection hE with h1 h2
            rw [← h1] at h
            simp at h
          · injection hE with h1 h2
            rw [← h1] at h
            simp at h

theorem jaka_badLength {pos : List ℚ} (speed accel : ℚ) (reply : Jaka.Resp)
    (h : pos.length ≠ Jaka.DOF) :
    Jaka.move_joints pos speed accel reply = (some Jaka.MoveErr.badLength, []) := by
  unfold Jaka.move_joints
  rw [if_pos h]

theorem jaka_badSpeed {pos : List ℚ} {speed : ℚ} (accel : ℚ) (reply : Jaka.Resp)
    (hl : pos.length = Jaka.DOF) (hs : Jaka.MAX_JOINT_VELOCITY ≤ speed) :
    Jaka.move_joints pos speed accel reply = (some Jaka.MoveErr.badSpeed, []) := by
  unfold Jaka.move_joints
  rw [if_neg (by omega : ¬ pos.length ≠ Jaka.DOF)]
  rw [if_pos (not_lt.mpr hs)]

theorem jaka_badAccel {pos : List ℚ} {speed accel : ℚ} (reply : Jaka.Resp)
    (hl : pos.length = Jaka.DOF) (hs : speed < Jaka.MAX_JOINT_VELOCITY)
    (ha : Jaka.MAX_JOINT_ACCELERATION ≤ accel) :
    Jaka.move_joints pos speed accel reply = (some Jaka.MoveErr.badAccel, []) := by
  unfold Jaka.move_joints
  rw [if_neg (by omega : ¬ pos.length ≠ Jaka.DOF)]
  rw [if_neg (not_not_intro hs)]
  rw [if_pos (not_lt.mpr ha)]

theorem jaka_badRange {pos : List ℚ} {speed accel : ℚ} {i : Nat} (reply : Jaka.Resp)
    (hl : pos.length = Jaka.DOF) (hs : speed < Jaka.MAX_JOINT_VELOCITY)
    (ha : accel < Jaka.MAX_JOINT_ACCELERATION)
    (hfv : firstViolation Jaka.JOINT_RANGES pos = some i) :
    Jaka.move_joints pos speed accel reply = (some (Jaka.MoveErr.badRange i), []) := by
  unfold Jaka.move_joints
  rw [if_neg (by omega : ¬ pos.length ≠ Jaka.DOF)]
  rw [if_neg (not_not_intro hs)]
  rw [if_neg (not_not_intro ha)]
  rw [hfv]

/-! ### Claim C1 -/

/-- Claim C1 as stated is refuted on this input: positions violate the axis-1
range (3.5 is outside (-pi, pi), as the second conjunct records) and the
speed also exceeds the limit; the claimed check order (length, then ranges,
then speed/acceleration) would raise the axis-range error, but
`UniversalRobotics.move_joints` raises the speed error, because its speed and
acceleration asserts run before the range loop. -/
theorem C1_check_order_counterexample :
    UR.move_joints [7 / 2, 0, 0, 0, 0, 0] 5 (1 / 20) 0 0
        = (some UR.MoveErr.badSpeed, [])
      ∧ firstViolation UR.JOINT_RANGES [7 / 2, 0, 0, 0, 0, 0] = some 0 := by
  constructor
  · exact ur_badSpeed (1 / 20) 0 0 (by decide)
      (by norm_num [UR.MAX_JOINT_VELOCITY])
  · norm_num [firstViolation, firstViolationAux, UR.JOINT_RANGES, piF]

/-- Claim C1, amended: every failed `move_joints` precondition raises a
specific validation error with no bytes sent on the wire, but the checks run
in source order: Universal Robotics checks length, then speed (strict), then
acceleration (inclusive), then per-axis ranges, while Elephant Robotics
checks length, then per-axis ranges, then the speed bound 0..2000. -/
theorem C1_validation_fails_fast :
    (∀ (pos : List ℚ) (speed accel t radius : ℚ),
      (UR.move_joints pos speed accel t radius).2 = [])
    ∧ (∀ (pos : List ℚ) (speed accel t radius : ℚ),
        pos.length ≠ UR.DOF →
        UR.move_joints pos speed accel t radius = (some UR.MoveErr.badLength, []))
    ∧ (∀ (pos : List ℚ) (speed accel t radius : ℚ),
        pos.length = UR.DOF → UR.MAX_JOINT_VELOCITY ≤ speed →
        UR.move_joints pos speed accel t radius = (some UR.MoveErr.badSpeed, []))
    ∧ (∀ (pos : List ℚ) (speed accel t radius : ℚ),
        pos.length = UR.DOF → speed < UR.MAX_JOINT_VELOCITY →
        UR.MAX_ACCELERATION < accel →
        UR.move_joints pos speed accel t radius = (some UR.MoveErr.badAccel, []))
    ∧ (∀ (pos : List ℚ) (speed accel t radius : ℚ) (i : Nat),
        pos.length = UR.DOF → speed < UR.MAX_JOINT_VELOCITY →
        accel ≤ UR.MAX_ACCELERATION →
        firstViolation UR.JOINT_RANGES pos = some i →
        UR.move_joints pos speed accel t radius = (some (UR.MoveErr.badRange i), []))
    ∧ (∀ (env : Elephant.Env) (fuel : Nat) (pos : List ℚ) (speed : ℚ)
        (e : Elephant.MoveErr),
        e ≠ Elephant.MoveErr.badResponse env.setAnglesResp →
        (Elephant.move_joints env fuel pos speed).1 = .err e →
        (Elephant.move_joints env fuel pos speed).2 = [])
    ∧ (∀ (env : Elephant.Env) (fuel : Nat) (pos : List ℚ) (speed : ℚ),
        pos.length ≠ Elephant.DOF →
        Elephant.move_joints env fuel pos speed
          = (.err Elephant.MoveErr.badLength, []))
    ∧ (∀ (env : Elephant.Env) (fuel : Nat) (pos : List ℚ) (speed : ℚ) (i : Nat),
        pos.length = Elephant.DOF →
        firstViolation Elephant.JOINT_RANGES pos = some i →
        Elephant.move_joints env fuel pos speed
          = (.err (Elephant.MoveErr.badRange i), []))
    ∧ (∀ (env : Elephant.Env) (fuel : Nat) (pos : List ℚ) (speed : ℚ),
        pos.length = Elephant.DOF →
        firstViolation Elephant.JOINT_RANGES pos = none →
        ¬ (0 ≤ speed ∧ speed ≤ 2000) →
        Elephant.move_joints env fuel pos speed
          = (.err Elephant.MoveErr.badSpeed, [])) := by
  refine ⟨?_, ?_, ?_, ?_, ?_, ?_, ?_, ?_, ?_⟩
  · exact ur_traffic_empty
  · exact fun pos speed accel t radius h => ur_badLength speed accel t radius h
  · exact fun pos speed accel t radius hl hs => ur_badSpeed accel t radius hl hs
  · exact fun pos speed accel t radius hl hs ha => ur_badAccel t radius hl hs ha
  · exact fun pos speed accel t radius i hl hs ha hfv =>
      ur_badRange t radius hl hs ha hfv
  · exact fun env fuel pos speed e hne h =>
      elephant_validation_no_traffic env fuel pos speed e hne h
  · exact fun env fuel pos speed h => elephant_badLength env fuel speed h
  · exact fun env fuel pos speed i hl hfv => elephant_badRange env fuel speed hl hfv
  · exact fun env fuel pos speed hl hfv hs => elephant_badSpeed env fuel hl hfv hs

/-- Witness for claim C1: concrete precondition failures on both vendors,
each raising the specific validation error with empty wire traffic. -/
theorem C1_validation_fails_fast_witness :
    (([0] : List ℚ).length ≠ UR.DOF)
    ∧ UR.move_joints [0] 1 1 0 0 = (some UR.MoveErr.badLength, [])
    ∧ (firstViolation Elephant.JOINT_RANGES [200, 0, 0, 0, 0, 0] = some 0)
    ∧ Elephant.move_joints ⟨"x", fun _ => []⟩ 3 [200, 0, 0, 0, 0, 0] 500
        = (.err (Elephant.MoveErr.badRange 0), []) :=
  ⟨by decide,
    C1_validation_fails_fast.2.1 [0] 1 1 0 0 (by decide),
    by norm_num [firstViolation, firstViolationAux, Elephant.JOINT_RANGES],
    C1_validation_fails_fast.2.2.2.2.2.2.2.1 ⟨"x", fun _ => []⟩ 3
      [200, 0, 0, 0, 0, 0] 500 0 (by decide)
      (by norm_num [firstViolation, firstViolationAux, Elephant.JOINT_RANGES])⟩

/-! ### Claim C4 -/

/-- Claim C4 as stated is refuted on this input: the Jaka adapter rejects a
request whose acceleration is exactly `MAX_JOINT_ACCELERATION`, because its
acceleration assert is strict (`<`), not inclusive as the claim says. -/
theorem C4_jaka_strict_accel_counterexample :
    Jaka.move_joints [0, 0, 0, 0, 0, 0] 1 Jaka.MAX_JOINT_ACCELERATION
        ⟨"0".toList, "joint_move".toList, none⟩
      = (some Jaka.MoveErr.badAccel, []) := by
  refine jaka_badAccel _ (by decide) ?_ le_rfl
  norm_num [Jaka.MAX_JOINT_VELOCITY, radiansQ, piF]

/-- Claim C4, amended: the velocity precondition is strict for both vendors
with limits (speed equal to the maximum is rejected); the acceleration
precondition is inclusive for Universal Robotics (acceleration equal to the
maximum passes that check) but strict for Jaka (acceleration equal to the
maximum is rejected). -/
theorem C4_velocity_strict_acceleration_split :
    (∀ (pos : List ℚ) (accel t radius : ℚ), pos.length = UR.DOF →
      UR.move_joints pos UR.MAX_JOINT_VELOCITY accel t radius
        = (some UR.MoveErr.badSpeed, []))
    ∧ (∀ (pos : List ℚ) (speed t radius : ℚ), pos.length = UR.DOF →
        speed < UR.MAX_JOINT_VELOCITY →
        (UR.move_joints pos speed UR.MAX_ACCELERATION t radius).1
          ≠ some UR.MoveErr.badAccel)
    ∧ (∀ (pos : List ℚ) (accel : ℚ) (reply : Jaka.Resp), pos.length = Jaka.DOF →
        Jaka.move_joints pos Jaka.MAX_JOINT_VELOCITY accel reply
          = (some Jaka.MoveErr.badSpeed, []))
    ∧ (∀ (pos : List ℚ) (speed : ℚ) (reply : Jaka.Resp), pos.length = Jaka.DOF →
        speed < Jaka.MAX_JOINT_VELOCITY →
        Jaka.move_joints pos speed Jaka.MAX_JOINT_ACCELERATION reply
          = (some Jaka.MoveErr.badAccel, [])) := by
  refine ⟨?_, ?_, ?_, ?_⟩
  · exact fun pos accel t radius hl => ur_badSpeed accel t radius hl le_rfl
  · intro pos speed t radius hl hs
    cases hfv : firstViolation UR.JOINT_RANGES pos with
    | some i =>
      rw [ur_badRange t radius hl hs le_rfl hfv]
      simp
    | none =>
      rw [ur_validated t radius hl hs le_rfl hfv]
      simp
  · exact fun pos accel reply hl => jaka_badSpeed accel reply hl le_rfl
  · exact fun pos speed reply hl hs => jaka_badAccel reply hl hs le_rfl

/-- Witness for claim C4: on a valid six-joint request, speed exactly at the
Universal Robotics limit is rejected, while acceleration exactly at its limit
passes the acceleration check. -/
theorem C4_velocity_strict_acceleration_split_witness :
    (([0, 0, 0, 0, 0, 0] : List ℚ).length = UR.DOF)
    ∧ UR.move_joints [0, 0, 0, 0, 0, 0] UR.MAX_JOINT_VELOCITY 1 0 0
        = (some UR.MoveErr.badSpeed, [])
    ∧ ((1 : ℚ) < UR.MAX_JOINT_VELOCITY)
    ∧ (UR.move_joints [0, 0, 0, 0, 0, 0] 1 UR.MAX_ACCELERATION 0 0).1
        ≠ some UR.MoveErr.badAccel :=
  ⟨by decide,
    C4_velocity_strict_acceleration_split.1 [0, 0, 0, 0, 0, 0] 1 0 0 (by decide),
    by norm_num [UR.MAX_JOINT_VELOCITY],
    C4_velocity_strict_acceleration_split.2.1 [0, 0, 0, 0, 0, 0] 1 0 0 (by decide)
      (by norm_num [UR.MAX_JOINT_VELOCITY])⟩

/-! ### Claims C2, C3, C10 (RTDE parser) -/

/-- Claim C2: for every byte string whose 4-byte big-endian length header is
missing or truncated (fewer than 4 bytes) or inconsistent with the actual
data length (declared length greater than the buffer, or smaller than the
4-byte header), `joint_angles` and `tcp_pose` return six zeros; the embedded
parser is a total function, so no exception is possible. -/
theorem C2_bad_header_returns_zeros (data : List Nat)
    (h : data.length < 4
      ∨ RTDE.bytesToNatBE (data.take 4) > data.length
      ∨ RTDE.bytesToNatBE (data.take 4) < 4) :
    RTDE.joint_angles data = RTDE.zeros 6 ∧ RTDE.tcp_pose data = RTDE.zeros 6 :=
  ⟨RTDE.parse_message_badHeader h, RTDE.parse_message_badHeader h⟩

/-- Witness for claim C2 at a concrete inconsistent packet: four header bytes
declaring a length of 99 on a 4-byte buffer. -/
theorem C2_bad_header_returns_zeros_witness :
    (([0, 0, 0, 99] : List Nat).length < 4
      ∨ RTDE.bytesToNatBE (([0, 0, 0, 99] : List Nat).take 4)
          > ([0, 0, 0, 99] : List Nat).length
      ∨ RTDE.bytesToNatBE (([0, 0, 0, 99] : List Nat).take 4) < 4)
    ∧ (RTDE.joint_angles [0, 0, 0, 99] = RTDE.zeros 6
      ∧ RTDE.tcp_pose [0, 0, 0, 99] = RTDE.zeros 6) :=
  ⟨by decide, C2_bad_header_returns_zeros [0, 0, 0, 99] (by decide)⟩

/-- Claim C3: for every well-formed packet (consistent 4-byte big-endian
length header, submessages framed as a 4-byte length plus a 1-byte type tag)
containing a type-1 submessage whose payload holds exactly six doubles
(48 bytes), `joint_angles` returns those six doubles in order, taken from the
first type-1 submessage in the packet; `tcp_pose` has the identical contract
for type 4. -/
theorem C3_first_match_extracted
    (msgs pre rest : List (Nat × List Nat)) (p : List Nat)
    (hwf : RTDE.WfMsgs msgs) (hp : p.length = 48) :
    ((msgs = pre ++ (1, p) :: rest ∧ ∀ tp ∈ pre, tp.1 ≠ 1) →
      RTDE.joint_angles (RTDE.buildPacket msgs) = RTDE.decodeWords 6 p)
    ∧ ((msgs = pre ++ (4, p) :: rest ∧ ∀ tp ∈ pre, tp.1 ≠ 4) →
      RTDE.tcp_pose (RTDE.buildPacket msgs) = RTDE.decodeWords 6 p) := by
  constructor
  · rintro ⟨hsplit, hpre⟩
    have h := RTDE.parse_message_first hwf hsplit hpre (show 6 * 8 ≤ p.length by omega)
    unfold RTDE.joint_angles
    rw [h, show (6 : Nat) * 8 = 48 from by norm_num, ← hp, List.take_length]
  · rintro ⟨hsplit, hpre⟩
    have h := RTDE.parse_message_first hwf hsplit hpre (show 6 * 8 ≤ p.length by omega)
    unfold RTDE.tcp_pose
    rw [h, show (6 : Nat) * 8 = 48 from by norm_num, ← hp, List.take_length]

/-- Witness for claim C3: a packet whose type-1 payload follows a type-2
submessage, and a single-submessage type-4 packet. -/
theorem C3_first_match_extracted_witness :
    RTDE.joint_angles (RTDE.buildPacket [(2, [9, 9, 9]), (1, List.replicate 48 7)])
        = RTDE.decodeWords 6 (List.replicate 48 7)
    ∧ RTDE.tcp_pose (RTDE.buildPacket [(4, List.replicate 48 3)])
        = RTDE.decodeWords 6 (List.replicate 48 3) :=
  ⟨(C3_first_match_extracted [(2, [9, 9, 9]), (1, List.replicate 48 7)]
      [(2, [9, 9, 9])] [] (List.replicate 48 7)
      (by unfold RTDE.WfMsgs RTDE.subsJoin RTDE.buildSub; decide) (by decide)).1
      ⟨rfl, by decide⟩,
    (C3_first_match_extracted [(4, List.replicate 48 3)] [] []
      (List.replicate 48 3)
      (by unfold RTDE.WfMsgs RTDE.subsJoin RTDE.buildSub; decide)
      (by decide)).2 ⟨rfl, by decide⟩⟩

/-- Claim C10 (implicit): when the first submessage whose type tag matches
the requested type is too short to hold six doubles, the scan aborts
immediately and six zeros are returned, even if a later well-formed
submessage of the same type exists in the packet (it is quantified over all
continuations `rest`, so later matches are never consulted). -/
theorem C10_truncated_match_aborts
    (msgs pre rest : List (Nat × List Nat)) (p : List Nat)
    (hwf : RTDE.WfMsgs msgs) (hp : p.length < 48) :
    ((msgs = pre ++ (1, p) :: rest ∧ ∀ tp ∈ pre, tp.1 ≠ 1) →
      RTDE.joint_angles (RTDE.buildPacket msgs) = RTDE.zeros 6)
    ∧ ((msgs = pre ++ (4, p) :: rest ∧ ∀ tp ∈ pre, tp.1 ≠ 4) →
      RTDE.tcp_pose (RTDE.buildPacket msgs) = RTDE.zeros 6) := by
  constructor
  · rintro ⟨hsplit, hpre⟩
    exact RTDE.parse_message_first_short hwf hsplit hpre (by omega)
  · rintro ⟨hsplit, hpre⟩
    exact RTDE.parse_message_first_short hwf hsplit hpre (by omega)

/-- Witness for claim C10: the first type-1 submessage carries only 16
payload bytes, and a later, fully well-formed 48-byte type-1 submessage is
ignored: the result is six zeros. -/
theorem C10_truncated_match_aborts_witness :
    RTDE.joint_angles (RTDE.buildPacket
        [(1, List.replicate 16 1), (1, List.replicate 48 7)]) = RTDE.zeros 6 :=
  (C10_truncated_match_aborts [(1, List.replicate 16 1), (1, List.replicate 48 7)]
      [] [(1, List.replicate 48 7)] (List.replicate 16 1)
      (by unfold RTDE.WfMsgs RTDE.subsJoin RTDE.buildSub; decide)
      (by decide)).1 ⟨rfl, by decide⟩

/-! ### Claims C5, C6 (connection lifecycle) -/

/-- Claim C5 as stated is refuted at this input: on a dual-port endpoint
where the send socket connects and the receive socket fails, `connect`
raises `ConnectionError` but performs no cleanup: the already-connected send
socket (and the created receive socket object) remain assigned, so a socket
does stay open after the error. -/
theorem C5_connect_leak_counterexample :
    SC.connect true ⟨true, false, true⟩ ⟨none, none⟩
      = (⟨some 0, some 1⟩, .connectionError) := by
  rfl

/-- Claim C5, amended: `connect` raises `ConnectionError` exactly when one of
its steps fails (send connect; receive connect when the ports differ; the
initial receive), but it is not all-or-nothing: the exception handler closes
nothing, the send socket attribute is always left assigned, and in the
dual-port receive-failure case both socket objects remain after the error. -/
theorem C5_connect_error_no_cleanup :
    (∀ (dual : Bool) (env : SC.ConnectEnv) (st : SC.SCState),
      (SC.connect dual env st).2 = SC.ConnectOutcome.ok
        ↔ (env.sendConnectOk ∧ (dual → env.recvConnectOk) ∧ env.initialRecvOk))
    ∧ (∀ (dual : Bool) (env : SC.ConnectEnv) (st : SC.SCState),
        (SC.connect dual env st).1.send_socket = some 0)
    ∧ (∀ (env : SC.ConnectEnv) (st : SC.SCState),
        env.sendConnectOk = true → env.recvConnectOk = false →
        SC.connect true env st = (⟨some 0, some 1⟩, .connectionError)) := by
  refine ⟨?_, ?_, ?_⟩
  · rintro dual ⟨se, re, ie⟩ st
    cases dual <;> cases se <;> cases re <;> cases ie <;> simp [SC.connect]
  · rintro dual ⟨se, re, ie⟩ st
    cases dual <;> cases se <;> cases re <;> cases ie <;> simp [SC.connect]
  · rintro ⟨se, re, ie⟩ st hse hre
    subst hse
    subst hre
    cases ie <;> rfl

/-- Witness for claim C5: dual-port connect against a failing receive
socket leaves both socket attributes assigned and reports the error. -/
theorem C5_connect_error_no_cleanup_witness :
    SC.connect true ⟨true, false, false⟩ ⟨none, none⟩
      = (⟨some 0, some 1⟩, .connectionError) :=
  C5_connect_error_no_cleanup.2.2 ⟨true, false, false⟩ ⟨none, none⟩ rfl rfl

/-- Claim C6: `disconnect` is idempotent: from any connection state,
including a never-connected or already-disconnected one, it never raises
(the Bool component, recording an escaped exception, is always false), and
afterwards both socket handles are cleared and the connection reads as not
connected; a second call behaves identically. -/
theorem C6_disconnect_idempotent (st : SC.SCState) :
    SC.disconnect st = (⟨none, none⟩, false)
    ∧ SC.disconnect (SC.disconnect st).1 = (⟨none, none⟩, false)
    ∧ SC.connectedB (SC.disconnect st).1 = false :=
  ⟨rfl, rfl, rfl⟩

/-! ### Claim C7 (JSON error codes) -/

/-- Claim C7: for every dict reply whose errorCode differs from the string 0,
the JSON adapter raises `DeviceError` whose message embeds the vendor error
message; a reply with errorCode 0 and matching cmdName does not raise. -/
theorem C7_json_error_code_raises (cmd : List Char) (r : Jaka.Resp) :
    (r.errorCode ≠ "0".toList →
      Jaka.send_and_check cmd r = .error (Jaka.failMsg cmd r)
      ∧ ∃ a b, Jaka.failMsg cmd r = a ++ Jaka.renderMsg r.errorMsg ++ b)
    ∧ (r.errorCode = "0".toList ∧ r.cmdName = cmd →
      Jaka.send_and_check cmd r = .ok r) := by
  constructor
  · intro hne
    constructor
    · unfold Jaka.send_and_check
      rw [if_neg (fun hand => hne hand.1)]
    · refine ⟨"Failed to execute ".toList ++ cmd ++ ": ".toList
        ++ Jaka.renderResp r ++ ". ".toList, [], ?_⟩
      unfold Jaka.failMsg
      simp [List.append_assoc]
  · intro hok
    unfold Jaka.send_and_check
    rw [if_pos hok]

/-- Witness for claim C7 at the concrete scenario-E reply: errorCode 1,
cmdName joint_move, errorMsg containing the vendor text. -/
theorem C7_json_error_code_raises_witness :
    Jaka.send_and_check "joint_move".toList
        ⟨"1".toList, "joint_move".toList, some "out of range".toList⟩
      = .error (Jaka.failMsg "joint_move".toList
        ⟨"1".toList, "joint_move".toList, some "out of range".toList⟩)
    ∧ ∃ a b,
        Jaka.failMsg "joint_move".toList
            ⟨"1".toList, "joint_move".toList, some "out of range".toList⟩
          = a ++ Jaka.renderMsg (some "out of range".toList) ++ b :=
  (C7_json_error_code_raises "joint_move".toList
      ⟨"1".toList, "joint_move".toList, some "out of range".toList⟩).1 (by decide)

/-! ### Claim C9 (decoding fallback) -/

/-- Claim C9: decoding a textual response never raises: `send_command` tries
UTF-8 first, falls back to Latin-1 when UTF-8 decoding fails (and would fall
back to UTF-8 with replacement characters if Latin-1 could also fail), so it
returns some decoded string for any response bytes. -/
theorem C9_decode_fallback_total (st : SC.SCState) (env : SC.CmdEnv)
    (b : List Nat) (hc : SC.connectedB st = true) (hs : env.sendOk = true)
    (hr : env.recv = SC.RecvOutcome.bytes b) :
    ∃ s, SC.send_command st env false = .ok (.text s)
      ∧ (SC.utf8Decode b = some s ∨ (SC.utf8Decode b = none ∧ s = b)) := by
  refine ⟨SC.decodeFallback b, ?_, ?_⟩
  · simp [SC.send_command, hc, hs, hr]
  · unfold SC.decodeFallback SC.latin1Decode
    cases hu : SC.utf8Decode b with
    | some s2 => exact Or.inl rfl
    | none => exact Or.inr ⟨rfl, rfl⟩

/-- Witness for claim C9: a connected channel receiving the single invalid
UTF-8 byte 0xFF still yields a decoded string (via the Latin-1 fallback). -/
theorem C9_decode_fallback_total_witness :
    ∃ s, SC.send_command ⟨some 0, some 0⟩ ⟨true, SC.RecvOutcome.bytes [255]⟩ false
        = .ok (.text s)
      ∧ (SC.utf8Decode [255] = some s
        ∨ (SC.utf8Decode [255] = none ∧ s = [255])) :=
  C9_decode_fallback_total ⟨some 0, some 0⟩ ⟨true, SC.RecvOutcome.bytes [255]⟩
    [255] rfl rfl rfl

/-! ### Claim C8 (poll-until-done termination) -/

theorem elephant_wait_never_done {replies : Nat → String}
    (h : ∀ n, replies n ≠ "wait_command_done:0") :
    ∀ (fuel n0 : Nat), Elephant.waitForFinish replies fuel n0 = none := by
  intro fuel
  induction fuel with
  | zero => intro n0; rfl
  | succ fuel ih =>
    intro n0
    simp only [Elephant.waitForFinish]
    rw [if_neg (h n0)]
    exact ih (n0 + 1)

theorem vention_wait_decides (replies : Nat → String) :
    ∀ (fuel n : Nat), n ≤ 121 → 122 ≤ n + fuel →
      ∃ r, Vention.waitForFinish replies fuel n = some r := by
  intro fuel
  induction fuel with
  | zero => intro n h1 h2; omega
  | succ fuel ih =>
    intro n h1 h2
    simp only [Vention.waitForFinish]
    by_cases ht : listIsInfixB "true".toList (replies n).toList = true
    · rw [if_pos ht]
      exact ⟨true, rfl⟩
    · rw [if_neg ht]
      by_cases htime : Vention.timeoutBudget < (n : ℚ) * Vention.delay
      · rw [if_pos htime]
        exact ⟨false, rfl⟩
      · rw [if_neg htime]
        have hn : n ≤ 120 := by
          unfold Vention.timeoutBudget Vention.delay at htime
          rw [mul_one] at htime
          have h3 : (n : ℚ) ≤ 120 := not_lt.mp htime
          exact_mod_cast h3
        exact ih (n + 1) (by omega) (by omega)

theorem vention_wait_times_out (replies : Nat → String)
    (hnever : ∀ n, listIsInfixB "true".toList (replies n).toList = false) :
    ∀ (fuel n : Nat), n ≤ 121 → 122 ≤ n + fuel →
      Vention.waitForFinish replies fuel n = some false := by
  intro fuel
  induction fuel with
  | zero => intro n h1 h2; omega
  | succ fuel ih =>
    intro n h1 h2
    simp only [Vention.waitForFinish]
    rw [if_neg (by rw [hnever n]; exact Bool.false_ne_true)]
    by_cases htime : Vention.timeoutBudget < (n : ℚ) * Vention.delay
    · rw [if_pos htime]
    · rw [if_neg htime]
      have hn : n ≤ 120 := by
        unfold Vention.timeoutBudget Vention.delay at htime
        rw [mul_one] at htime
        have h3 : (n : ℚ) ≤ 120 := not_lt.mp htime
        exact_mod_cast h3
      exact ih (n + 1) (by omega) (by omega)

/-- Claim C8 as stated is refuted: the Elephant Robotics completion loop has
no overall timeout; against a device that always answers something other
than the done sentinel, the loop never finishes and never raises
`TimeoutError`, however many iterations it is allowed. -/
theorem C8_elephant_unbounded_counterexample :
    ¬ ∃ (fuel n : Nat),
      Elephant.waitForFinish (fun _ => "wait_command_done:1") fuel 0 = some n := by
  rintro ⟨fuel, n, h⟩
  rw [elephant_wait_never_done (fun k => by decide) fuel 0] at h
  cases h

/-- Claim C8, amended: the Vention completion poll is bounded by its overall
timeout: with a 1 s interval and a 120 s budget it always decides within 122
polls, raising `TimeoutError` (the `some false` outcome) when no affirmative
reply arrives; the Elephant Robotics wait loop, by contrast, has no overall
bound and polls forever while the done sentinel never arrives. -/
theorem C8_poll_bounded_only_for_vention :
    (∀ replies : Nat → String,
      ∃ r, Vention.waitForFinish replies 122 0 = some r)
    ∧ (∀ replies : Nat → String,
        (∀ n, listIsInfixB "true".toList (replies n).toList = false) →
        Vention.waitForFinish replies 122 0 = some false)
    ∧ (∀ replies : Nat → String,
        (∀ n, replies n ≠ "wait_command_done:0") →
        ∀ (fuel n0 : Nat), Elephant.waitForFinish replies fuel n0 = none) :=
  ⟨fun replies => vention_wait_decides replies 122 0 (by omega) (by omega),
    fun replies h => vention_wait_times_out replies h 122 0 (by omega) (by omega),
    fun replies h fuel n0 => elephant_wait_never_done h fuel n0⟩

/-- Witness for claim C8 at concrete reply streams: a silent-but-busy Vention
controller times out, while a busy Elephant controller is polled forever. -/
theorem C8_poll_bounded_only_for_vention_witness :
    Vention.waitForFinish (fun _ => "no") 122 0 = some false
    ∧ Elephant.waitForFinish (fun _ => "busy") 7 0 = none :=
  ⟨C8_poll_bounded_only_for_vention.2.1 (fun _ => "no")
      (by intro n; show listIsInfixB "true".toList "no".toList = false; decide),
    C8_poll_bounded_only_for_vention.2.2 (fun _ => "busy")
      (by intro n; show "busy" ≠ "wait_command_done:0"; decide) 7 0⟩


end Armctl
